import Mathlib

/-!
Shallow embedding of `bf4-archiver.py`, a Battlelog archival script.

The script has three network-facing components and a write-to-disk step:

* `battlelogApiFetch` (source lines 26-46): a blocking single-request
  fetcher.  It loops: HTTP 504 means sleep and retry; HTTP 403 means
  `sys.exit(1)`; any other status breaks the loop and the body is decoded
  as JSON, a decode failure yielding the `{}` sentinel.  A transport
  exception also exits with code 1.
* `battlelogRetrieveReport` (lines 54-83): the per-record retry loop.
  `attempt` is incremented at the top of every iteration.  A 200 response
  with a non-null, non-empty body returns it; an empty/null body returns
  `{}` once `attempt >= 6`, otherwise sleeps 3 s and retries; a non-200
  response (the failed `assert`) sleeps 600 s and retries; a
  `ClientOSError` sleeps 10 s and retries.
* the enumeration loop in `main` (lines 133-147): repeatedly fetches the
  "more" endpoint keyed by `report_list[-1]['createdAt']`; an empty page
  with `noDataReturned >= 5` breaks, an empty page otherwise increments
  the counter, a non-empty page resets it to 0 and appends the stubs.
* the batched concurrent fetch (lines 158-171): `report_list` is rebound
  to `numpy.array_split(report_list, ceil(len/20))`; each chunk's reports
  are fetched and the truthy ones appended; line 186 then writes the
  (rebound, chunked) `report_list` to `report_list.json`.

Network interaction is modelled by oracles: a stream of responses indexed
by the number of requests already made.  Unbounded `while True` loops are
modelled with explicit fuel (`none` = fuel exhausted, which corresponds to
no behaviour of the source, whose loops simply keep running).
-/

/-- One entry of the paginated report index (`data.gameReports[i]`):
identity key `gameReportId` and the `createdAt` timestamp used to request
the next page. -/
structure ReportStub where
  gameReportId : String
  createdAt : Nat
deriving DecidableEq

/-- A hydrated battle report: the JSON document returned by
`loadgeneralreport`, keyed by its own `id` field (used as the persisted
filename).  `payload` stands for the remaining content. -/
structure ReportDetail where
  id : String
  payload : Nat
deriving DecidableEq

/-- A decoded JSON document as far as the script inspects it:
`obj0` is the empty-object `{}` sentinel, `page stubs` is a report-list
response in which `['data']['gameReports']` is present, and `raw` is any
other document (profile data, stats blobs, or a response missing the
expected fields). -/
inductive PyVal
  | obj0
  | page (stubs : List ReportStub)
  | raw (tag : Nat)
deriving DecidableEq

/-- One observable outcome of `requests.get` inside `battlelogApiFetch`:
an HTTP response with a status code and a body (`none` = body does not
decode as JSON), or a transport-level exception. -/
inductive ApiResp
  | http (status : Nat) (body : Option PyVal)
  | connError
deriving DecidableEq

/-- The result of `battlelogApiFetch`: `fatal code` models `sys.exit(code)`,
`value v` models returning the decoded document. -/
inductive ApiResult
  | fatal (code : Nat)
  | value (v : PyVal)
deriving DecidableEq

/-- `battlelogApiFetch` (source lines 26-46) over a response stream.
Arguments after the stream: remaining fuel, then the index of the next
response to consume.  Returns the result paired with the total number of
responses consumed.  A 504 sleeps and retries; a 403 prints and exits 1;
a transport exception exits 1; any other status breaks the loop and the
body is decoded, a decode failure producing the `{}` sentinel. -/
def battlelogApiFetch (resps : Nat → ApiResp) : Nat → Nat → Option (ApiResult × Nat)
  | 0, _ => none
  | fuel + 1, idx =>
    match resps idx with
    | ApiResp.connError => some (ApiResult.fatal 1, idx + 1)
    | ApiResp.http status body =>
      if status = 504 then battlelogApiFetch resps fuel (idx + 1)
      else if status = 403 then some (ApiResult.fatal 1, idx + 1)
      else some (ApiResult.value (body.getD PyVal.obj0), idx + 1)

/-- `time.sleep(3)` in the empty-body branch of `battlelogRetrieveReport`. -/
def shortRetryDelay : Nat := 3

/-- `time.sleep(10)` in the `ClientOSError` branch of `battlelogRetrieveReport`. -/
def transportRetryDelay : Nat := 10

/-- `time.sleep(600)` in the `AssertionError` (non-200) branch of
`battlelogRetrieveReport`. -/
def rateLimitDelay : Nat := 600

/-- The `attempt >= 6` cap in `battlelogRetrieveReport`. -/
def attemptCap : Nat := 6

/-- One observable outcome of `session.get` inside
`battlelogRetrieveReport`: a 200 response whose body is a usable report
(`ok (some d)`) or null/empty (`ok none`), a non-200 response
(`httpError`, the failed `assert`), or a `ClientOSError`
(`transportError`). -/
inductive Outcome
  | ok (body : Option ReportDetail)
  | httpError
  | transportError
deriving DecidableEq

/-- The loop body of `battlelogRetrieveReport` (source lines 54-83) over an
outcome stream.  Arguments after the stream: remaining fuel, index of the
next outcome, and the value of `attempt` before the `attempt += 1` at the
top of the iteration (the call in `main` starts at 0).  Returns
`(result, outcomes consumed, sleep durations in order)`, where the result
is `some d` for a returned report and `none` for the returned `{}` after
the cap.  Note that `attempt` is incremented on every iteration, including
iterations that end in `httpError` or `transportError`. -/
def retrieveLoop (outcomes : Nat → Outcome) :
    Nat → Nat → Nat → Option (Option ReportDetail × Nat × List Nat)
  | 0, _, _ => none
  | fuel + 1, idx, attempt =>
    match outcomes idx with
    | Outcome.ok (some d) => some (some d, idx + 1, [])
    | Outcome.ok none =>
      if attemptCap ≤ attempt + 1 then some (none, idx + 1, [])
      else
        (retrieveLoop outcomes fuel (idx + 1) (attempt + 1)).map
          (fun r => (r.1, r.2.1, shortRetryDelay :: r.2.2))
    | Outcome.httpError =>
      (retrieveLoop outcomes fuel (idx + 1) (attempt + 1)).map
        (fun r => (r.1, r.2.1, rateLimitDelay :: r.2.2))
    | Outcome.transportError =>
      (retrieveLoop outcomes fuel (idx + 1) (attempt + 1)).map
        (fun r => (r.1, r.2.1, transportRetryDelay :: r.2.2))

/-- `battlelogRetrieveReport` as called from `main`: the retry loop started
with `attempt = 0` on the first outcome of the stream. -/
def battlelogRetrieveReport (outcomes : Nat → Outcome) (fuel : Nat) :
    Option (Option ReportDetail × Nat × List Nat) :=
  retrieveLoop outcomes fuel 0 0

/-- Modelled from the spec's words, for comparison with `retrieveLoop`
(claim C4): identical retry loop except that a connection-level transport
error "has no attempt-count effect", i.e. the `transportError` branch
retries with `attempt` unchanged. -/
def retrieveLoopSpecC4 (outcomes : Nat → Outcome) :
    Nat → Nat → Nat → Option (Option ReportDetail × Nat × List Nat)
  | 0, _, _ => none
  | fuel + 1, idx, attempt =>
    match outcomes idx with
    | Outcome.ok (some d) => some (some d, idx + 1, [])
    | Outcome.ok none =>
      if attemptCap ≤ attempt + 1 then some (none, idx + 1, [])
      else
        (retrieveLoopSpecC4 outcomes fuel (idx + 1) (attempt + 1)).map
          (fun r => (r.1, r.2.1, shortRetryDelay :: r.2.2))
    | Outcome.httpError =>
      (retrieveLoopSpecC4 outcomes fuel (idx + 1) (attempt + 1)).map
        (fun r => (r.1, r.2.1, rateLimitDelay :: r.2.2))
    | Outcome.transportError =>
      (retrieveLoopSpecC4 outcomes fuel (idx + 1) attempt).map
        (fun r => (r.1, r.2.1, transportRetryDelay :: r.2.2))

/-- The spec-side per-record fetch of claim C4, started like
`battlelogRetrieveReport`. -/
def battlelogRetrieveReportSpecC4 (outcomes : Nat → Outcome) (fuel : Nat) :
    Option (Option ReportDetail × Nat × List Nat) :=
  retrieveLoopSpecC4 outcomes fuel 0 0

/-- Result of the enumeration loop: `crash i` models the uncaught
`IndexError` raised by `report_list[-1]` when the accumulated list is
empty (`i` = number of "more" fetches performed before the crash);
`done stubs n` models leaving the loop with the accumulated stub list
after `n` "more" fetches. -/
inductive EnumResult
  | crash (fetchesBefore : Nat)
  | done (stubs : List ReportStub) (fetches : Nat)
deriving DecidableEq

/-- The pagination loop of `main` (source lines 133-147) over a stream of
"more" pages (`pages i` = the `data.gameReports` list of the i-th "more"
response).  Arguments after the stream: remaining fuel, next page index,
accumulated `report_list`, and `noDataReturned`.  Each iteration first
evaluates `report_list[-1]` (crash when empty), then fetches the next
page; an empty page with `noDataReturned >= 5` breaks, an empty page
otherwise increments the counter, a non-empty page resets it to 0 and
extends the accumulator. -/
def enumLoop (pages : Nat → List ReportStub) :
    Nat → Nat → List ReportStub → Nat → Option EnumResult
  | 0, _, _, _ => none
  | fuel + 1, i, acc, noDataReturned =>
    if acc.isEmpty then some (EnumResult.crash i)
    else if (pages i).isEmpty then
      if 5 ≤ noDataReturned then some (EnumResult.done acc (i + 1))
      else enumLoop pages fuel (i + 1) acc (noDataReturned + 1)
    else enumLoop pages fuel (i + 1) (acc ++ pages i) 0

/-- The report-index enumeration of `main`: the pagination loop started
from the first-page batch with `noDataReturned = 0`. -/
def enumerateReports (initial : List ReportStub) (pages : Nat → List ReportStub)
    (fuel : Nat) : Option EnumResult :=
  enumLoop pages fuel 0 initial 0

/-- Modelled from the spec's words, for comparison with `enumLoop`
(claim C1): enumeration "terminates exactly when 5 consecutive empty pages
have been observed", i.e. the empty page that makes the count of
consecutive empty pages reach 5 is the one that breaks the loop. -/
def enumLoopSpecC1 (pages : Nat → List ReportStub) :
    Nat → Nat → List ReportStub → Nat → Option EnumResult
  | 0, _, _, _ => none
  | fuel + 1, i, acc, noDataReturned =>
    if acc.isEmpty then some (EnumResult.crash i)
    else if (pages i).isEmpty then
      if 4 ≤ noDataReturned then some (EnumResult.done acc (i + 1))
      else enumLoopSpecC1 pages fuel (i + 1) acc (noDataReturned + 1)
    else enumLoopSpecC1 pages fuel (i + 1) (acc ++ pages i) 0

/-- The spec-side enumeration of claim C1, started like
`enumerateReports`. -/
def enumerateReportsSpecC1 (initial : List ReportStub)
    (pages : Nat → List ReportStub) (fuel : Nat) : Option EnumResult :=
  enumLoopSpecC1 pages fuel 0 initial 0

/-- The section sizes produced by `numpy.array_split` for a list of length
`n` split into `k` sections: `n % k` sections of size `n / k + 1` followed
by the remaining sections of size `n / k` (numpy's documented behaviour). -/
def splitSizes (n k : Nat) : List Nat :=
  List.replicate (n % k) (n / k + 1) ++ List.replicate (k - n % k) (n / k)

/-- Cut a list into consecutive chunks of the given sizes. -/
def takeChunks {α : Type _} : List α → List Nat → List (List α)
  | _, [] => []
  | l, s :: ss => l.take s :: takeChunks (l.drop s) ss

/-- `numpy.array_split(l, k)`: `none` models the `ValueError` numpy raises
when the requested number of sections is 0 (which `main` triggers on an
empty report list, as `math.ceil(0/20) = 0`). -/
def array_split {α : Type _} (l : List α) (k : Nat) : Option (List (List α)) :=
  if k = 0 then none else some (takeChunks l (splitSizes l.length k))

/-- `math.ceil(len(report_list)/20)` at source line 158. -/
def batchCount (stubs : List ReportStub) : Nat :=
  (stubs.length + 19) / 20

/-- The batched concurrent fetch stage of `main` (source lines 158-171),
with the per-stub fetch result abstracted as `oracle` (`some d` = the task
returned report `d`; `none` = the task returned the falsy `{}`).  The stub
list is split into `ceil(len/20)` chunks; within each chunk every stub is
fetched and the truthy results are appended in order; chunks are processed
sequentially. -/
def fetchAll (stubs : List ReportStub) (oracle : ReportStub → Option ReportDetail) :
    Option (List ReportDetail) :=
  (array_split stubs (batchCount stubs)).map
    (fun chunks => (chunks.map (fun chunk => (chunk.map oracle).filterMap id)).flatten)

/-- The shape of a value persisted to a JSON file: a flat sequence of
records, or a sequence of chunks of records (the shape of the rebound
`report_list` at source line 186: a Python list of numpy arrays of stub
dicts). -/
inductive FileValue (α : Type)
  | seq (xs : List α)
  | chunkSeq (xss : List (List α))
deriving DecidableEq

/-- The value written to `report_list.json` (source line 186): by that
line, `report_list` has been rebound (line 158) to
`numpy.array_split(report_list, ceil(len/20))`, so the file receives the
chunked form, not the flat stub sequence. -/
def reportListFileValue (stubs : List ReportStub) : Option (FileValue ReportStub) :=
  (array_split stubs (batchCount stubs)).map FileValue.chunkSeq

/-- Modelled from the spec's words, for comparison with
`reportListFileValue` (claim C8): `report_list.json` holds "the full stub
sequence" exactly as accumulated by enumeration. -/
def reportListFileValueSpec (stubs : List ReportStub) : FileValue ReportStub :=
  FileValue.seq stubs

/-- The sequence of one-shot `battlelogApiFetch` calls at the start of
`main` (profile, club, weapon, vehicle, detailed, assignment, award):
`metaResps i` is the response stream of the i-th call; the calls run in
order and any `sys.exit` aborts the sequence. -/
def fetchMetaSeq (metaResps : Nat → Nat → ApiResp) (fuel : Nat) :
    Nat → Option (Except Nat Unit)
  | 0 => some (Except.ok ())
  | n + 1 =>
    match fetchMetaSeq metaResps fuel n with
    | none => none
    | some (Except.error c) => some (Except.error c)
    | some (Except.ok ()) =>
      match battlelogApiFetch (metaResps n) fuel 0 with
      | none => none
      | some (ApiResult.fatal c, _) => some (Except.error c)
      | some (ApiResult.value _, _) => some (Except.ok ())

/-- The overall outcome of one run of `main`: a fatal process exit with the
given code, or the archived stub list and hydrated details. -/
inductive RunOutcome
  | fatal (code : Nat)
  | archived (stubs : List ReportStub) (details : List ReportDetail)
deriving DecidableEq

/-- A run outcome together with how far the pipeline got:
`paginationFetches` = "more"-page requests performed by the enumeration
loop, `recordTasks` = per-record fetch tasks created by the batched fetch
stage. -/
structure RunTrace where
  outcome : RunOutcome
  paginationFetches : Nat
  recordTasks : Nat
deriving DecidableEq

/-- The control flow of `main` (source lines 85-171): the seven one-shot
metadata fetches in order, then the initial report-list fetch
(`metaResps 7`; a response without the `data.gameReports` fields is the
`KeyError` "reports hidden" exit), then the pagination loop, then the
batched per-record fetch.  Any `sys.exit` or uncaught exception stops the
pipeline; the trace records how many pagination fetches and record tasks
happened before that. -/
def mainRun (metaResps : Nat → Nat → ApiResp) (pages : Nat → List ReportStub)
    (oracle : ReportStub → Option ReportDetail) (fuel : Nat) : Option RunTrace :=
  match fetchMetaSeq metaResps fuel 7 with
  | none => none
  | some (Except.error c) => some ⟨RunOutcome.fatal c, 0, 0⟩
  | some (Except.ok ()) =>
    match battlelogApiFetch (metaResps 7) fuel 0 with
    | none => none
    | some (ApiResult.fatal c, _) => some ⟨RunOutcome.fatal c, 0, 0⟩
    | some (ApiResult.value (PyVal.page initial), _) =>
      match enumLoop pages fuel 0 initial 0 with
      | none => none
      | some (EnumResult.crash i) => some ⟨RunOutcome.fatal 1, i, 0⟩
      | some (EnumResult.done stubs n) =>
        match fetchAll stubs oracle with
        | none => some ⟨RunOutcome.fatal 1, n, 0⟩
        | some details => some ⟨RunOutcome.archived stubs details, n, stubs.length⟩
    | some (ApiResult.value _, _) => some ⟨RunOutcome.fatal 1, 0, 0⟩

/-- A concrete stub used by the witnesses and counterexamples. -/
def stubA : ReportStub := ⟨"1000000000", 100⟩

/-- A second concrete stub used by the witnesses and counterexamples. -/
def stubB : ReportStub := ⟨"1000000001", 90⟩

/-- A concrete hydrated report used by the witnesses. -/
def detailB : ReportDetail := ⟨"1000000001", 7⟩

/-- Page stream for the C1 counterexample: five empty pages, then one
non-empty page, then empty pages forever. -/
def pagesC1 : Nat → List ReportStub := fun i => if i = 5 then [stubB] else []

/-- Outcome stream for the C4 counterexample and witness: one transport
error, then empty-body 200 responses forever. -/
def outcomesC4 : Nat → Outcome :=
  fun k => if k = 0 then Outcome.transportError else Outcome.ok none

/-- Outcome stream for the C5 witness: two non-200 responses, then a valid
body. -/
def outcomesC5 : Nat → Outcome :=
  fun k => if k < 2 then Outcome.httpError else Outcome.ok (some detailB)

/-- Per-stub outcome streams for the C3 witness: `stubA` always yields an
empty body, every other stub succeeds immediately. -/
def streamsC3 : ReportStub → Nat → Outcome :=
  fun s _ => if s = stubA then Outcome.ok none else Outcome.ok (some detailB)

/-! ### Helper lemmas about `array_split` and `fetchAll` -/

theorem takeChunks_length {α : Type _} :
    ∀ (ss : List Nat) (l : List α), (takeChunks l ss).length = ss.length
  | [], _ => rfl
  | s :: ss, l => by
    simp [takeChunks, takeChunks_length ss]

theorem takeChunks_flatten {α : Type _} :
    ∀ (ss : List Nat) (l : List α), ss.sum = l.length → (takeChunks l ss).flatten = l
  | [], l, h => by
    simp only [List.sum_nil] at h
    simp [takeChunks, (List.length_eq_zero.mp h.symm)]
  | s :: ss, l, h => by
    have hs : s ≤ l.length := by
      simp only [List.sum_cons] at h
      omega
    have htail : ss.sum = (l.drop s).length := by
      simp only [List.sum_cons] at h
      simp [List.length_drop]
      omega
    simp only [takeChunks, List.flatten_cons, takeChunks_flatten ss (l.drop s) htail]
    exact List.take_append_drop s l

theorem takeChunks_mem_length {α : Type _} :
    ∀ (ss : List Nat) (l : List α) (c : List α),
      c ∈ takeChunks l ss → ∃ s, s ∈ ss ∧ c.length ≤ s
  | [], l, c => by simp [takeChunks]
  | s :: ss, l, c => by
    simp only [takeChunks, List.mem_cons]
    rintro (rfl | h)
    · refine ⟨s, Or.inl rfl, ?_⟩
      rw [List.length_take]
      exact Nat.min_le_left _ _
    · obtain ⟨t, ht, hc⟩ := takeChunks_mem_length ss (l.drop s) c h
      exact ⟨t, Or.inr ht, hc⟩

theorem splitSizes_length (n k : Nat) (hk : k ≠ 0) : (splitSizes n k).length = k := by
  have hmod : n % k < k := Nat.mod_lt _ (Nat.pos_of_ne_zero hk)
  simp only [splitSizes, List.length_append, List.length_replicate]
  omega

theorem splitSizes_sum (n k : Nat) (hk : k ≠ 0) : (splitSizes n k).sum = n := by
  have hmod : n % k < k := Nat.mod_lt _ (Nat.pos_of_ne_zero hk)
  have hdm : k * (n / k) + n % k = n := Nat.div_add_mod n k
  have hle : n % k * (n / k) ≤ k * (n / k) :=
    Nat.mul_le_mul_right _ (Nat.le_of_lt hmod)
  simp only [splitSizes, List.sum_append, List.sum_const_nat, Nat.mul_succ, Nat.sub_mul]
  omega

theorem splitSizes_le (n k : Nat) (hk : k ≠ 0) (hn : n ≤ 20 * k) :
    ∀ s, s ∈ splitSizes n k → s ≤ 20 := by
  intro s hs
  have hk0 : 0 < k := Nat.pos_of_ne_zero hk
  have hdm : k * (n / k) + n % k = n := Nat.div_add_mod n k
  have hq : n / k ≤ 20 := by
    have h1 : k * (n / k) ≤ 20 * k := by omega
    have h2 : n / k * k ≤ 20 * k := by
      calc n / k * k = k * (n / k) := Nat.mul_comm _ _
        _ ≤ 20 * k := h1
    exact Nat.le_of_mul_le_mul_right h2 hk0
  rcases List.mem_append.mp hs with h | h
  · have hrep := List.eq_of_mem_replicate h
    have hr0 : n % k ≠ 0 := by
      intro h0
      rw [h0] at h
      simp at h
    have hqlt : n / k < 20 := by
      have h1 : k * (n / k) < n := by omega
      have h2 : k * (n / k) < k * 20 := by
        calc k * (n / k) < n := h1
          _ ≤ 20 * k := hn
          _ = k * 20 := Nat.mul_comm _ _
      exact Nat.lt_of_mul_lt_mul_left h2
    omega
  · have hrep := List.eq_of_mem_replicate h
    omega

theorem array_split_spec (l : List ReportStub) (h : l ≠ []) :
    ∃ chunks, array_split l (batchCount l) = some chunks
      ∧ chunks.length = batchCount l
      ∧ l.length ≤ 20 * chunks.length
      ∧ 20 * (chunks.length - 1) < l.length
      ∧ chunks.flatten = l
      ∧ (∀ c, c ∈ chunks → c.length ≤ 20) := by
  have hn : 1 ≤ l.length := List.length_pos.mpr h
  have hdm : 20 * ((l.length + 19) / 20) + (l.length + 19) % 20 = l.length + 19 :=
    Nat.div_add_mod _ 20
  have hmod : (l.length + 19) % 20 < 20 := Nat.mod_lt _ (by omega)
  have hk : batchCount l ≠ 0 := by
    simp only [batchCount]
    omega
  have hle : l.length ≤ 20 * batchCount l := by
    simp only [batchCount]
    omega
  have hlt : 20 * (batchCount l - 1) < l.length := by
    simp only [batchCount]
    omega
  refine ⟨takeChunks l (splitSizes l.length (batchCount l)), ?_, ?_, ?_, ?_, ?_, ?_⟩
  · rw [array_split, if_neg hk]
  · rw [takeChunks_length, splitSizes_length _ _ hk]
  · rw [takeChunks_length, splitSizes_length _ _ hk]
    exact hle
  · rw [takeChunks_length, splitSizes_length _ _ hk]
    exact hlt
  · exact takeChunks_flatten _ _ (splitSizes_sum _ _ hk)
  · intro c hc
    obtain ⟨s, hs, hcs⟩ := takeChunks_mem_length _ _ _ hc
    exact hcs.trans (splitSizes_le _ _ hk hle s hs)

theorem flatten_map_filterMap {α β : Type _} (f : α → Option β) :
    ∀ L : List (List α),
      (L.map (fun c => c.filterMap f)).flatten = L.flatten.filterMap f
  | [] => rfl
  | c :: L => by
    simp only [List.map_cons, List.flatten_cons, List.filterMap_append]
    rw [flatten_map_filterMap f L]

theorem fetchAll_eq_filterMap (stubs : List ReportStub)
    (oracle : ReportStub → Option ReportDetail) (h : stubs ≠ []) :
    fetchAll stubs oracle = some (stubs.filterMap oracle) := by
  obtain ⟨chunks, hsplit, _, _, _, hflat, _⟩ := array_split_spec stubs h
  have hmap : ∀ c : List ReportStub, (c.map oracle).filterMap id = c.filterMap oracle := by
    intro c
    rw [List.filterMap_map]
    rfl
  simp only [fetchAll, hsplit, Option.map_some']
  congr 1
  simp only [hmap]
  rw [flatten_map_filterMap, hflat]

/-! ### Helper lemmas about `retrieveLoop` -/

theorem retrieveLoop_allEmpty (outcomes : Nat → Outcome) :
    ∀ r fuel idx attempt, attempt + r = 5 →
      (∀ k, outcomes (idx + k) = Outcome.ok none) →
      r + 1 ≤ fuel →
      retrieveLoop outcomes fuel idx attempt =
        some (none, idx + r + 1, List.replicate r shortRetryDelay) := by
  intro r
  induction r with
  | zero =>
    intro fuel idx attempt ha hk hf
    obtain ⟨f, rfl⟩ : ∃ f, fuel = f + 1 := ⟨fuel - 1, by omega⟩
    have h0 : outcomes idx = Outcome.ok none := by simpa using hk 0
    have hcap : attemptCap ≤ attempt + 1 := by
      simp only [attemptCap]
      omega
    simp [retrieveLoop, h0, hcap]
  | succ r ih =>
    intro fuel idx attempt ha hk hf
    obtain ⟨f, rfl⟩ : ∃ f, fuel = f + 1 := ⟨fuel - 1, by omega⟩
    have h0 : outcomes idx = Outcome.ok none := by simpa using hk 0
    have hcap : ¬ attemptCap ≤ attempt + 1 := by
      simp only [attemptCap]
      omega
    have hk' : ∀ k, outcomes (idx + 1 + k) = Outcome.ok none := by
      intro k
      have := hk (k + 1)
      rwa [show idx + (k + 1) = idx + 1 + k by omega] at this
    have hrec := ih f (idx + 1) (attempt + 1) (by omega) hk' (by omega)
    simp only [retrieveLoop, h0, hcap, if_false, hrec, Option.map_some']
    rw [show idx + 1 + r + 1 = idx + (r + 1) + 1 by omega, List.replicate_succ]

theorem retrieveLoop_transportThenEmpty (outcomes : Nat → Outcome) :
    ∀ t r fuel idx attempt, attempt + t + r = 5 →
      (∀ j, j < t → outcomes (idx + j) = Outcome.transportError) →
      (∀ k, outcomes (idx + t + k) = Outcome.ok none) →
      t + r + 1 ≤ fuel →
      retrieveLoop outcomes fuel idx attempt =
        some (none, idx + t + r + 1,
          List.replicate t transportRetryDelay ++ List.replicate r shortRetryDelay) := by
  intro t
  induction t with
  | zero =>
    intro r fuel idx attempt ha ht hk hf
    have := retrieveLoop_allEmpty outcomes r fuel idx attempt (by omega)
      (by intro k; simpa using hk k) (by omega)
    simpa using this
  | succ t ih =>
    intro r fuel idx attempt ha ht hk hf
    obtain ⟨f, rfl⟩ : ∃ f, fuel = f + 1 := ⟨fuel - 1, by omega⟩
    have h0 : outcomes idx = Outcome.transportError := by simpa using ht 0 (by omega)
    have ht' : ∀ j, j < t → outcomes (idx + 1 + j) = Outcome.transportError := by
      intro j hj
      have := ht (j + 1) (by omega)
      rwa [show idx + (j + 1) = idx + 1 + j by omega] at this
    have hk' : ∀ k, outcomes (idx + 1 + t + k) = Outcome.ok none := by
      intro k
      have := hk k
      rwa [show idx + (t + 1) + k = idx + 1 + t + k by omega] at this
    have hrec := ih r f (idx + 1) (attempt + 1) (by omega) ht' hk' (by omega)
    simp only [retrieveLoop, h0, hrec, Option.map_some']
    rw [show idx + 1 + t + r + 1 = idx + (t + 1) + r + 1 by omega, List.replicate_succ]
    rfl

theorem retrieveLoop_rateLimitedRun (outcomes : Nat → Outcome) (d : ReportDetail) :
    ∀ t fuel idx attempt,
      (∀ j, j < t → outcomes (idx + j) = Outcome.httpError) →
      outcomes (idx + t) = Outcome.ok (some d) →
      t + 1 ≤ fuel →
      retrieveLoop outcomes fuel idx attempt =
        some (some d, idx + t + 1, List.replicate t rateLimitDelay) := by
  intro t
  induction t with
  | zero =>
    intro fuel idx attempt ht hd hf
    obtain ⟨f, rfl⟩ : ∃ f, fuel = f + 1 := ⟨fuel - 1, by omega⟩
    have h0 : outcomes idx = Outcome.ok (some d) := by simpa using hd
    simp [retrieveLoop, h0]
  | succ t ih =>
    intro fuel idx attempt ht hd hf
    obtain ⟨f, rfl⟩ : ∃ f, fuel = f + 1 := ⟨fuel - 1, by omega⟩
    have h0 : outcomes idx = Outcome.httpError := by simpa using ht 0 (by omega)
    have ht' : ∀ j, j < t → outcomes (idx + 1 + j) = Outcome.httpError := by
      intro j hj
      have := ht (j + 1) (by omega)
      rwa [show idx + (j + 1) = idx + 1 + j by omega] at this
    have hd' : outcomes (idx + 1 + t) = Outcome.ok (some d) := by
      have := hd
      rwa [show idx + (t + 1) = idx + 1 + t by omega] at this
    have hrec := ih f (idx + 1) (attempt + 1) ht' hd' (by omega)
    simp only [retrieveLoop, h0, hrec, Option.map_some']
    rw [show idx + 1 + t + 1 = idx + (t + 1) + 1 by omega, List.replicate_succ]

/-! ### Helper lemmas about `enumLoop` -/

theorem enumLoop_done_concat (pages : Nat → List ReportStub) :
    ∀ fuel i acc noData res n,
      enumLoop pages fuel i acc noData = some (EnumResult.done res n) →
      i < n ∧ res = acc ++ ((List.range' i (n - i)).map pages).flatten := by
  intro fuel
  induction fuel with
  | zero =>
    intro i acc noData res n h
    simp [enumLoop] at h
  | succ f ih =>
    intro i acc noData res n h
    rw [enumLoop] at h
    by_cases hacc : acc.isEmpty
    · rw [if_pos hacc] at h
      simp at h
    · rw [if_neg hacc] at h
      by_cases hpi : (pages i).isEmpty
      · rw [if_pos hpi] at h
        by_cases hnd : 5 ≤ noData
        · rw [if_pos hnd] at h
          simp only [Option.some.injEq, EnumResult.done.injEq] at h
          obtain ⟨rfl, rfl⟩ := h
          refine ⟨by omega, ?_⟩
          simp [List.range', List.isEmpty_iff.mp hpi]
        · rw [if_neg hnd] at h
          obtain ⟨hin, hres⟩ := ih (i + 1) acc (noData + 1) res n h
          refine ⟨by omega, ?_⟩
          rw [hres, show n - i = (n - (i + 1)) + 1 by omega, List.range'_succ]
          simp [List.isEmpty_iff.mp hpi]
      · rw [if_neg hpi] at h
        obtain ⟨hin, hres⟩ := ih (i + 1) (acc ++ pages i) 0 res n h
        refine ⟨by omega, ?_⟩
        rw [hres, show n - i = (n - (i + 1)) + 1 by omega, List.range'_succ]
        simp

theorem enumLoop_done_trailing (pages : Nat → List ReportStub) :
    ∀ fuel i acc noData res n,
      noData ≤ 5 → noData ≤ i →
      (∀ k, 1 ≤ k → k ≤ noData → pages (i - k) = []) →
      enumLoop pages fuel i acc noData = some (EnumResult.done res n) →
      6 ≤ n ∧ (∀ j, n - 6 ≤ j → j < n → pages j = []) := by
  intro fuel
  induction fuel with
  | zero =>
    intro i acc noData res n _ _ _ h
    simp [enumLoop] at h
  | succ f ih =>
    intro i acc noData res n h5 hni hrun h
    rw [enumLoop] at h
    by_cases hacc : acc.isEmpty
    · rw [if_pos hacc] at h
      simp at h
    · rw [if_neg hacc] at h
      by_cases hpi : (pages i).isEmpty
      · rw [if_pos hpi] at h
        by_cases hnd : 5 ≤ noData
        · rw [if_pos hnd] at h
          simp only [Option.some.injEq, EnumResult.done.injEq] at h
          obtain ⟨rfl, rfl⟩ := h
          refine ⟨by omega, ?_⟩
          intro j hj6 hji
          by_cases hji' : j = i
          · subst hji'
            exact List.isEmpty_iff.mp hpi
          · have hk := hrun (i - j) (by omega) (by omega)
            rwa [show i - (i - j) = j by omega] at hk
        · rw [if_neg hnd] at h
          refine ih (i + 1) acc (noData + 1) res n (by omega) (by omega) ?_ h
          intro k hk1 hk2
          by_cases hk : k = 1
          · subst hk
            simpa using List.isEmpty_iff.mp hpi
          · have := hrun (k - 1) (by omega) (by omega)
            rwa [show i + 1 - k = i - (k - 1) by omega]
      · rw [if_neg hpi] at h
        refine ih (i + 1) (acc ++ pages i) 0 res n (by omega) (by omega) ?_ h
        intro k hk1 hk2
        omega

theorem enumLoop_done_min (pages : Nat → List ReportStub) :
    ∀ fuel i acc noData res n m,
      noData ≤ 5 → 6 ≤ m →
      (∀ j, m - 6 ≤ j → j < m → pages j = []) →
      i ≤ m - 6 + noData →
      enumLoop pages fuel i acc noData = some (EnumResult.done res n) →
      n ≤ m := by
  intro fuel
  induction fuel with
  | zero =>
    intro i acc noData res n m _ _ _ _ h
    simp [enumLoop] at h
  | succ f ih =>
    intro i acc noData res n m h5 hm6 hme hi h
    rw [enumLoop] at h
    by_cases hacc : acc.isEmpty
    · rw [if_pos hacc] at h
      simp at h
    · rw [if_neg hacc] at h
      by_cases hpi : (pages i).isEmpty
      · rw [if_pos hpi] at h
        by_cases hnd : 5 ≤ noData
        · rw [if_pos hnd] at h
          simp only [Option.some.injEq, EnumResult.done.injEq] at h
          obtain ⟨rfl, rfl⟩ := h
          omega
        · rw [if_neg hnd] at h
          exact ih (i + 1) acc (noData + 1) res n m (by omega) hm6 hme (by omega) h
      · rw [if_neg hpi] at h
        have hilt : i < m - 6 := by
          by_contra hge
          have hij : i < m := by omega
          have := hme i (by omega) hij
          rw [this] at hpi
          simp at hpi
        exact ih (i + 1) (acc ++ pages i) 0 res n m (by omega) hm6 hme (by omega) h

theorem enumLoop_reaches_done (pages : Nat → List ReportStub) :
    ∀ fuel i acc noData m,
      acc ≠ [] → noData ≤ 5 → 6 ≤ m →
      (∀ j, m - 6 ≤ j → j < m → pages j = []) →
      i ≤ m - 6 + noData →
      m < fuel + i →
      ∃ res n, enumLoop pages fuel i acc noData = some (EnumResult.done res n) := by
  intro fuel
  induction fuel with
  | zero =>
    intro i acc noData m _ h5 hm6 _ hi hfuel
    omega
  | succ f ih =>
    intro i acc noData m hacc h5 hm6 hme hi hfuel
    rw [enumLoop]
    rw [if_neg (by simpa [List.isEmpty_iff] using hacc)]
    by_cases hpi : (pages i).isEmpty
    · rw [if_pos hpi]
      by_cases hnd : 5 ≤ noData
      · rw [if_pos hnd]
        exact ⟨acc, i + 1, rfl⟩
      · rw [if_neg hnd]
        exact ih (i + 1) acc (noData + 1) m hacc (by omega) hm6 hme (by omega) (by omega)
    · rw [if_neg hpi]
      have hilt : i < m - 6 := by
        by_contra hge
        have hij : i < m := by omega
        have := hme i (by omega) hij
        rw [this] at hpi
        simp at hpi
      refine ih (i + 1) (acc ++ pages i) 0 m ?_ (by omega) hm6 hme (by omega) (by omega)
      simp [hacc]

/-! ### Helper lemmas about `battlelogApiFetch` and `fetchMetaSeq` -/

theorem battlelogApiFetch_skip504 (resps : Nat → ApiResp) :
    ∀ t fuel idx, (∀ j, j < t → ∃ b, resps (idx + j) = ApiResp.http 504 b) →
      t ≤ fuel →
      battlelogApiFetch resps fuel idx = battlelogApiFetch resps (fuel - t) (idx + t) := by
  intro t
  induction t with
  | zero =>
    intro fuel idx _ _
    simp
  | succ t ih =>
    intro fuel idx h5 hf
    obtain ⟨f, rfl⟩ : ∃ f, fuel = f + 1 := ⟨fuel - 1, by omega⟩
    obtain ⟨b, hb⟩ := h5 0 (by omega)
    rw [show idx + 0 = idx by omega] at hb
    have h5' : ∀ j, j < t → ∃ b, resps (idx + 1 + j) = ApiResp.http 504 b := by
      intro j hj
      obtain ⟨b', hb'⟩ := h5 (j + 1) (by omega)
      exact ⟨b', by rwa [show idx + (j + 1) = idx + 1 + j by omega] at hb'⟩
    rw [battlelogApiFetch, hb]
    show battlelogApiFetch resps f (idx + 1) = battlelogApiFetch resps (f + 1 - (t + 1)) (idx + (t + 1))
    rw [ih f (idx + 1) h5' (by omega)]
    rw [show f - t = f + 1 - (t + 1) by omega, show idx + 1 + t = idx + (t + 1) by omega]

theorem battlelogApiFetch_403 (resps : Nat → ApiResp) (idx fuel : Nat)
    (h5 : ∀ j, j < idx → ∃ b, resps j = ApiResp.http 504 b)
    (h4 : ∃ b, resps idx = ApiResp.http 403 b) (hf : idx < fuel) :
    battlelogApiFetch resps fuel 0 = some (ApiResult.fatal 1, idx + 1) := by
  have hskip := battlelogApiFetch_skip504 resps idx fuel 0
    (by intro j hj; simpa using h5 j hj) (by omega)
  rw [show (0 : Nat) + idx = idx by omega] at hskip
  obtain ⟨f, hfeq⟩ : ∃ f, fuel - idx = f + 1 := ⟨fuel - idx - 1, by omega⟩
  obtain ⟨b, hb⟩ := h4
  rw [hskip, hfeq, battlelogApiFetch, hb]
  rfl

theorem fetchMetaSeq_all_ok (metaResps : Nat → Nat → ApiResp) (fuel : Nat) :
    ∀ n, (∀ i, i < n → ∃ v m, battlelogApiFetch (metaResps i) fuel 0 = some (ApiResult.value v, m)) →
      fetchMetaSeq metaResps fuel n = some (Except.ok ()) := by
  intro n
  induction n with
  | zero =>
    intro _
    rfl
  | succ n ih =>
    intro h
    have hn := ih (fun i hi => h i (by omega))
    obtain ⟨v, m, hv⟩ := h n (by omega)
    rw [fetchMetaSeq, hn, hv]

theorem fetchMetaSeq_err_propagates (metaResps : Nat → Nat → ApiResp) (fuel i : Nat)
    (hprev : ∀ i', i' < i → ∃ v m, battlelogApiFetch (metaResps i') fuel 0 = some (ApiResult.value v, m))
    (herr : ∃ m, battlelogApiFetch (metaResps i) fuel 0 = some (ApiResult.fatal 1, m)) :
    ∀ n, i < n → fetchMetaSeq metaResps fuel n = some (Except.error 1) := by
  intro n
  induction n with
  | zero =>
    intro h
    omega
  | succ n ih =>
    intro h
    obtain ⟨m, hm⟩ := herr
    by_cases hin : i = n
    · subst hin
      have hok := fetchMetaSeq_all_ok metaResps fuel i hprev
      rw [fetchMetaSeq, hok, hm]
    · have := ih (by omega)
      rw [fetchMetaSeq, this]

/-! ### Claim C1 -/

/-- Claim C1, counterexample: with the spec's own synthetic shape (five
empty pages, then a non-empty page, then empty pages), the source's
enumeration loop does not terminate when 5 consecutive empty pages have
been observed: it issues a sixth fetch, absorbs the non-empty page 5, and
only stops later, returning `[stubA, stubB]` after 12 fetches, while the
spec-side loop (terminate at the 5th consecutive empty page) returns
`[stubA]` after 5 fetches. -/
theorem enumeration_five_empty_counterexample :
    enumerateReports [stubA] pagesC1 13 = some (EnumResult.done [stubA, stubB] 12)
    ∧ enumerateReportsSpecC1 [stubA] pagesC1 13 = some (EnumResult.done [stubA] 5)
    ∧ enumerateReports [stubA] pagesC1 13 ≠ enumerateReportsSpecC1 [stubA] pagesC1 13 := by
  refine ⟨by decide, by decide, by decide⟩

/-- Claim C1 (amended): enumeration terminates exactly when an empty page
arrives while the empty-response counter is already 5, i.e. after 6 (not
5) consecutive empty pages; a non-empty page resets the counter to zero;
the result is the order-preserving concatenation of the first-page batch
and all non-empty pages fetched before termination.  Precisely: whenever
the loop returns `done res n`, the last 6 of the `n` fetched pages are
empty, no earlier run of 6 consecutive empty pages exists, and `res` is
the initial batch followed by the concatenation of pages `0..n-1`;
conversely, whenever some prefix of the page stream ends in 6 consecutive
empty pages and the initial batch is non-empty, the loop terminates with
enough fuel. -/
theorem enumeration_terminates_after_six_empty (pages : Nat → List ReportStub)
    (initial : List ReportStub) (fuel : Nat) :
    (∀ res n, enumerateReports initial pages fuel = some (EnumResult.done res n) →
      res = initial ++ ((List.range' 0 n).map pages).flatten
      ∧ 6 ≤ n
      ∧ (∀ j, n - 6 ≤ j → j < n → pages j = [])
      ∧ (∀ m, 6 ≤ m → (∀ j, m - 6 ≤ j → j < m → pages j = []) → n ≤ m))
    ∧ (∀ m, 6 ≤ m → (∀ j, m - 6 ≤ j → j < m → pages j = []) → initial ≠ [] → m < fuel →
      ∃ res n, enumerateReports initial pages fuel = some (EnumResult.done res n)) := by
  constructor
  · intro res n h
    obtain ⟨hin, hres⟩ := enumLoop_done_concat pages fuel 0 initial 0 res n h
    obtain ⟨h6, htrail⟩ := enumLoop_done_trailing pages fuel 0 initial 0 res n
      (by omega) (by omega) (by intro k hk1 hk0; omega) h
    refine ⟨by simpa using hres, h6, htrail, ?_⟩
    intro m hm hempty
    exact enumLoop_done_min pages fuel 0 initial 0 res n m (by omega) hm hempty (by omega) h
  · intro m hm hempty hinit hfuel
    exact enumLoop_reaches_done pages fuel 0 initial 0 m hinit (by omega) hm hempty
      (by omega) (by omega)

/-- Claim C1 witness: with a first-page batch `[stubA]` and all "more"
pages empty, the amended theorem's termination direction produces a
result with fuel 7 (the loop stops after 6 empty pages). -/
theorem enumeration_terminates_after_six_empty_witness :
    ∃ res n, enumerateReports [stubA] (fun _ => []) 7 = some (EnumResult.done res n) :=
  (enumeration_terminates_after_six_empty (fun _ => []) [stubA] 7).2 6 (by omega)
    (fun _ _ _ => rfl) (by decide) (by omega)

/-! ### Claim C2 -/

/-- Claim C2 (code bug): for a profile with zero reports the first-page
batch is empty, and the very first iteration of the pagination loop
evaluates `report_list[-1]` on the empty list, raising an uncaught
`IndexError` — the run crashes before any pagination fetch instead of
returning the empty stub sequence.  The batched fetch stage would also
crash on empty input (`numpy.array_split(x, 0)` raises `ValueError`,
since `math.ceil(0/20) = 0`), modelled by `fetchAll` returning `none`. -/
theorem zero_reports_crash :
    enumerateReports [] (fun _ => []) 1 = some (EnumResult.crash 0)
    ∧ fetchAll [] (fun _ => none) = none := by
  refine ⟨rfl, rfl⟩

/-! ### Claim C3 -/

/-- Claim C3: a stub whose per-record fetch yields an HTTP 200 with a
null/empty body on every attempt is re-attempted after the short fixed
delay (3 s) up to 6 attempts total and then fails: the loop returns the
falsy `{}` (modelled `none`) after consuming exactly 6 outcomes with 5
short sleeps in between; the batched fetch stage still completes
(`some` result), its output is exactly the per-stub successes in order,
and every other stub's successful result is present in the output. -/
theorem empty_body_record_skipped (stubs : List ReportStub)
    (streams : ReportStub → Nat → Outcome) (s0 : ReportStub) (fuel : Nat)
    (hs : s0 ∈ stubs) (h0 : ∀ k, streams s0 k = Outcome.ok none) (hf : 6 ≤ fuel) :
    battlelogRetrieveReport (streams s0) fuel
      = some (none, 6, List.replicate 5 shortRetryDelay)
    ∧ (battlelogRetrieveReport (streams s0) fuel).bind (fun r => r.1) = none
    ∧ fetchAll stubs (fun s => (battlelogRetrieveReport (streams s) fuel).bind (fun r => r.1))
        = some (stubs.filterMap
            (fun s => (battlelogRetrieveReport (streams s) fuel).bind (fun r => r.1)))
    ∧ (∀ s, s ∈ stubs → ∀ d,
        (battlelogRetrieveReport (streams s) fuel).bind (fun r => r.1) = some d →
        d ∈ stubs.filterMap
          (fun s => (battlelogRetrieveReport (streams s) fuel).bind (fun r => r.1))) := by
  have h1 : battlelogRetrieveReport (streams s0) fuel
      = some (none, 6, List.replicate 5 shortRetryDelay) := by
    have := retrieveLoop_allEmpty (streams s0) 5 fuel 0 0 (by omega)
      (by intro k; simpa using h0 k) (by omega)
    simpa [battlelogRetrieveReport] using this
  refine ⟨h1, by rw [h1]; rfl, ?_, ?_⟩
  · exact fetchAll_eq_filterMap stubs _ (List.ne_nil_of_mem hs)
  · intro s hsmem d hd
    exact List.mem_filterMap.mpr ⟨s, hsmem, hd⟩

/-- Claim C3 witness: two stubs, `stubA` always empty-bodied and `stubB`
succeeding immediately, with fuel 6. -/
theorem empty_body_record_skipped_witness :
    battlelogRetrieveReport (streamsC3 stubA) 6
      = some (none, 6, List.replicate 5 shortRetryDelay)
    ∧ (battlelogRetrieveReport (streamsC3 stubA) 6).bind (fun r => r.1) = none
    ∧ fetchAll [stubA, stubB]
        (fun s => (battlelogRetrieveReport (streamsC3 s) 6).bind (fun r => r.1))
        = some ([stubA, stubB].filterMap
            (fun s => (battlelogRetrieveReport (streamsC3 s) 6).bind (fun r => r.1)))
    ∧ (∀ s, s ∈ [stubA, stubB] → ∀ d,
        (battlelogRetrieveReport (streamsC3 s) 6).bind (fun r => r.1) = some d →
        d ∈ [stubA, stubB].filterMap
          (fun s => (battlelogRetrieveReport (streamsC3 s) 6).bind (fun r => r.1))) :=
  empty_body_record_skipped [stubA, stubB] streamsC3 stubA 6 (by decide)
    (fun _ => by simp [streamsC3]) (by omega)

/-! ### Claim C4 -/

/-- Claim C4, counterexample: one transport error followed by empty-body
200 responses.  The source loop fails the record after only 5 empty-body
responses (6 outcomes consumed in total), because the transport-error
iteration also incremented `attempt`; the spec-side loop (transport
errors leave the attempt count unchanged) consumes 6 empty-body responses
(7 outcomes) before failing.  So a transport error does change which
attempt number a subsequent empty-body response is judged against. -/
theorem transport_error_counterexample :
    battlelogRetrieveReport outcomesC4 7
      = some (none, 6, transportRetryDelay :: List.replicate 4 shortRetryDelay)
    ∧ battlelogRetrieveReportSpecC4 outcomesC4 7
      = some (none, 7, transportRetryDelay :: List.replicate 5 shortRetryDelay)
    ∧ battlelogRetrieveReport outcomesC4 7 ≠ battlelogRetrieveReportSpecC4 outcomesC4 7 := by
  refine ⟨by decide, by decide, by decide⟩

/-- Claim C4 (amended): a connection-level transport error transitions to
a retry with the short fixed 10 s delay and without any cap of its own,
but the loop's attempt counter is incremented on every iteration,
including those ending in a transport error; hence `n ≤ 5` transport
errors before a run of empty-body responses cause the record to fail
after only `6 - n` empty-body responses (6 outcomes in total, `n` long
sleeps of 10 s then `5 - n` short sleeps of 3 s). -/
theorem transport_errors_count_toward_cap (outcomes : Nat → Outcome) (n fuel : Nat)
    (hn : n ≤ 5) (ht : ∀ j, j < n → outcomes j = Outcome.transportError)
    (he : ∀ k, outcomes (n + k) = Outcome.ok none) (hf : 6 ≤ fuel) :
    battlelogRetrieveReport outcomes fuel =
      some (none, 6,
        List.replicate n transportRetryDelay ++ List.replicate (5 - n) shortRetryDelay) := by
  have := retrieveLoop_transportThenEmpty outcomes n (5 - n) fuel 0 0 (by omega)
    (by intro j hj; simpa using ht j hj) (by intro k; simpa using he k) (by omega)
  rw [battlelogRetrieveReport, this, show 0 + n + (5 - n) + 1 = 6 by omega]

/-- Claim C4 witness: the amended theorem applied to one transport error
followed by empty bodies, with fuel 6. -/
theorem transport_errors_count_toward_cap_witness :
    battlelogRetrieveReport outcomesC4 6 =
      some (none, 6,
        List.replicate 1 transportRetryDelay ++ List.replicate (5 - 1) shortRetryDelay) :=
  transport_errors_count_toward_cap outcomesC4 1 6 (by omega) (by decide)
    (fun k => by simp [outcomesC4]) (by omega)

/-! ### Claim C5 -/

/-- Claim C5: a non-200 response sends the per-record loop into the
rate-limited wait: a long fixed 600 s delay, then a re-attempt, with no
cap on this path — any number `n` of consecutive non-200 responses
followed by a 200 with a valid body still returns that body
(`some d`, never the failed `{}`), consuming `n + 1` outcomes with `n`
long sleeps; and the rate-limit delay is strictly longer than both the
short empty-body delay and the transport-error delay. -/
theorem rate_limited_retries_unbounded (outcomes : Nat → Outcome) (d : ReportDetail)
    (n fuel : Nat) (hh : ∀ j, j < n → outcomes j = Outcome.httpError)
    (hd : outcomes n = Outcome.ok (some d)) (hf : n + 1 ≤ fuel) :
    battlelogRetrieveReport outcomes fuel
      = some (some d, n + 1, List.replicate n rateLimitDelay)
    ∧ shortRetryDelay < rateLimitDelay
    ∧ transportRetryDelay < rateLimitDelay := by
  refine ⟨?_, by decide, by decide⟩
  have := retrieveLoop_rateLimitedRun outcomes d n fuel 0 0
    (by intro j hj; simpa using hh j hj) (by simpa using hd) (by omega)
  rw [battlelogRetrieveReport, this, show 0 + n + 1 = n + 1 by omega]

/-- Claim C5 witness: two non-200 responses then a valid body, fuel 3. -/
theorem rate_limited_retries_unbounded_witness :
    battlelogRetrieveReport outcomesC5 3
      = some (some detailB, 2 + 1, List.replicate 2 rateLimitDelay)
    ∧ shortRetryDelay < rateLimitDelay
    ∧ transportRetryDelay < rateLimitDelay :=
  rate_limited_retries_unbounded outcomesC5 detailB 2 3 (by decide) (by decide) (by omega)

/-! ### Claim C6 -/

/-- Claim C6: every detail in the batched fetch stage's output arises
from the fetch of some stub in the input list (the output is the
chunk-wise concatenation of per-stub successes, and chunks partition the
input); consequently, whenever the per-stub fetch answers with a detail
carrying the requested `gameReportId`, no output detail carries an id
absent from the input stub identifiers. -/
theorem fetchAll_output_subset (stubs : List ReportStub)
    (oracle : ReportStub → Option ReportDetail) (res : List ReportDetail)
    (h : fetchAll stubs oracle = some res) :
    (∀ d, d ∈ res → ∃ s, s ∈ stubs ∧ oracle s = some d)
    ∧ ((∀ s d, oracle s = some d → d.id = s.gameReportId) →
        ∀ d, d ∈ res → d.id ∈ stubs.map (fun s => s.gameReportId)) := by
  have hne : stubs ≠ [] := by
    intro hnil
    subst hnil
    simp [fetchAll, batchCount, array_split] at h
  rw [fetchAll_eq_filterMap stubs oracle hne] at h
  obtain rfl : stubs.filterMap oracle = res := Option.some.inj h
  constructor
  · intro d hd
    exact List.mem_filterMap.mp hd
  · intro hid d hd
    obtain ⟨s, hsmem, hsd⟩ := List.mem_filterMap.mp hd
    exact List.mem_map.mpr ⟨s, hsmem, (hid s d hsd).symm⟩

/-- Claim C6 witness: a single stub whose fetch returns a detail with the
same id. -/
theorem fetchAll_output_subset_witness :
    (∀ d, d ∈ [ReportDetail.mk "1000000000" 0] →
      ∃ s, s ∈ [stubA] ∧ (fun s : ReportStub => some (ReportDetail.mk s.gameReportId 0)) s = some d)
    ∧ ((∀ s d, (fun s : ReportStub => some (ReportDetail.mk s.gameReportId 0)) s = some d →
          d.id = s.gameReportId) →
        ∀ d, d ∈ [ReportDetail.mk "1000000000" 0] →
          d.id ∈ [stubA].map (fun s => s.gameReportId)) :=
  fetchAll_output_subset [stubA] (fun s : ReportStub => some (ReportDetail.mk s.gameReportId 0))
    [ReportDetail.mk "1000000000" 0] (by decide)

/-! ### Claim C7 -/

/-- Claim C7: for a non-empty stub list of length `N` the partition at
source line 158 is deterministic and exhaustive: `array_split` succeeds,
forms exactly `batchCount = ceil(N/20)` batches (characterised by
`N ≤ 20 * batches` and `20 * (batches - 1) < N`), their concatenation is
the original list (so every stub lands in exactly one batch, in order),
and no batch holds more than 20 stubs. -/
theorem batch_partition_exact (stubs : List ReportStub) (h : stubs ≠ []) :
    ∃ chunks, array_split stubs (batchCount stubs) = some chunks
      ∧ chunks.length = batchCount stubs
      ∧ stubs.length ≤ 20 * chunks.length
      ∧ 20 * (chunks.length - 1) < stubs.length
      ∧ chunks.flatten = stubs
      ∧ (∀ c, c ∈ chunks → c.length ≤ 20) :=
  array_split_spec stubs h

/-- Claim C7 witness: a list of 21 stubs splits into 2 batches. -/
theorem batch_partition_exact_witness :
    ∃ chunks, array_split (List.replicate 21 stubA) (batchCount (List.replicate 21 stubA))
        = some chunks
      ∧ chunks.length = batchCount (List.replicate 21 stubA)
      ∧ (List.replicate 21 stubA).length ≤ 20 * chunks.length
      ∧ 20 * (chunks.length - 1) < (List.replicate 21 stubA).length
      ∧ chunks.flatten = List.replicate 21 stubA
      ∧ (∀ c, c ∈ chunks → c.length ≤ 20) :=
  batch_partition_exact (List.replicate 21 stubA) (by decide)

/-! ### Claim C8 -/

/-- Claim C8, counterexample: the value written to `report_list.json` is
the rebound, chunked `report_list` (a list of numpy arrays), not the flat
stub sequence: already for a single accumulated stub the written value is
the one-chunk nesting `[[stubA]]`, which differs from the spec-side flat
sequence `[stubA]`. -/
theorem report_list_file_counterexample :
    reportListFileValue [stubA] = some (FileValue.chunkSeq [[stubA]])
    ∧ reportListFileValueSpec [stubA] = FileValue.seq [stubA]
    ∧ reportListFileValue [stubA] ≠ some (reportListFileValueSpec [stubA]) := by
  refine ⟨rfl, rfl, by decide⟩

/-- Claim C8 (amended): for every run that reaches the write-to-disk step
with a non-empty stub list, `report_list.json` receives the stub sequence
in batched form — the list of at-most-20-element chunks produced at line
158 — whose concatenation is exactly the full accumulated stub sequence
in order (so the file still determines the sequence, but not in the flat
shape the spec describes). -/
theorem report_list_written_chunked (stubs : List ReportStub) (h : stubs ≠ []) :
    ∃ chunks, reportListFileValue stubs = some (FileValue.chunkSeq chunks)
      ∧ chunks.flatten = stubs
      ∧ (∀ c, c ∈ chunks → c.length ≤ 20) := by
  obtain ⟨chunks, hsplit, _, _, _, hflat, hle⟩ := array_split_spec stubs h
  exact ⟨chunks, by rw [reportListFileValue, hsplit]; rfl, hflat, hle⟩

/-- Claim C8 witness: the amended theorem at the two-stub list. -/
theorem report_list_written_chunked_witness :
    ∃ chunks, reportListFileValue [stubA, stubB] = some (FileValue.chunkSeq chunks)
      ∧ chunks.flatten = [stubA, stubB]
      ∧ (∀ c, c ∈ chunks → c.length ≤ 20) :=
  report_list_written_chunked [stubA, stubB] (by decide)

/-! ### Claim C9 -/

/-- Claim C9: if the i-th one-shot fetch of `main` (i = 0..6 the metadata
fetches, i = 7 the initial report-list fetch) receives an HTTP 403 — after
any number of 504 retries and with all earlier one-shot fetches
succeeding — then `battlelogApiFetch` stops at that very response (it
consumes exactly `idx + 1` responses, so the 403 is not retried) and
returns the fatal exit 1, and the whole run ends with exit code 1 having
performed zero pagination fetches and zero per-record fetch tasks. -/
theorem forbidden_terminates_run (metaResps : Nat → Nat → ApiResp)
    (pages : Nat → List ReportStub) (oracle : ReportStub → Option ReportDetail)
    (fuel i idx : Nat) (hi : i ≤ 7)
    (hprev : ∀ i', i' < i →
      ∃ v m, battlelogApiFetch (metaResps i') fuel 0 = some (ApiResult.value v, m))
    (h5 : ∀ j, j < idx → ∃ b, metaResps i j = ApiResp.http 504 b)
    (h4 : ∃ b, metaResps i idx = ApiResp.http 403 b)
    (hf : idx < fuel) :
    battlelogApiFetch (metaResps i) fuel 0 = some (ApiResult.fatal 1, idx + 1)
    ∧ mainRun metaResps pages oracle fuel = some ⟨RunOutcome.fatal 1, 0, 0⟩ := by
  have h403 := battlelogApiFetch_403 (metaResps i) idx fuel h5 h4 hf
  refine ⟨h403, ?_⟩
  by_cases h7 : i = 7
  · subst h7
    have hok := fetchMetaSeq_all_ok metaResps fuel 7 hprev
    rw [mainRun, hok, h403]
  · have herr := fetchMetaSeq_err_propagates metaResps fuel i hprev ⟨idx + 1, h403⟩ 7
      (by omega)
    rw [mainRun, herr]

/-- Claim C9 witness: every response of every stream is a 403; the very
first one-shot fetch exits the run. -/
theorem forbidden_terminates_run_witness :
    battlelogApiFetch ((fun _ _ => ApiResp.http 403 none) 0) 1 0
      = some (ApiResult.fatal 1, 0 + 1)
    ∧ mainRun (fun _ _ => ApiResp.http 403 none) (fun _ => []) (fun _ => none) 1
      = some ⟨RunOutcome.fatal 1, 0, 0⟩ :=
  forbidden_terminates_run (fun _ _ => ApiResp.http 403 none) (fun _ => [])
    (fun _ => none) 1 0 0 (by omega) (fun i' h => absurd h (by omega))
    (fun j h => absurd h (by omega)) ⟨none, rfl⟩ (by omega)

/-! ### Claim C10 -/

/-- Claim C10: for any status other than 504 and 403 (500, 429, 200, ...),
`battlelogApiFetch` neither retries nor exits: it consumes exactly that
one response and returns the decoded body, or the empty-object sentinel
`{}` when the body does not decode as JSON — the result does not depend
on the status code at all, so a non-504 server error is indistinguishable
to the caller from a 200 with no usable data. -/
theorem other_status_returns_body (resps : Nat → ApiResp) (status : Nat)
    (body : Option PyVal) (fuel : Nat)
    (h5 : status ≠ 504) (h4 : status ≠ 403) (h0 : resps 0 = ApiResp.http status body) :
    battlelogApiFetch resps (fuel + 1) 0
      = some (ApiResult.value (body.getD PyVal.obj0), 1) := by
  rw [battlelogApiFetch, h0]
  show (if status = 504 then battlelogApiFetch resps fuel 1
    else if status = 403 then some (ApiResult.fatal 1, 0 + 1)
    else some (ApiResult.value (body.getD PyVal.obj0), 0 + 1))
    = some (ApiResult.value (body.getD PyVal.obj0), 1)
  rw [if_neg h5, if_neg h4]

/-- Claim C10 witness: a 500 response with an undecodable body yields the
`{}` sentinel after exactly one request. -/
theorem other_status_returns_body_witness :
    battlelogApiFetch (fun _ => ApiResp.http 500 none) (0 + 1) 0
      = some (ApiResult.value ((none : Option PyVal).getD PyVal.obj0), 1) :=
  other_status_returns_body (fun _ => ApiResp.http 500 none) 500 none 0
    (by omega) (by omega) rfl
